import Mathlib

/-!
Verification of the testvibe test framework core: a shallow embedding of
the CLI handler (run-list parsing, suite/test-case discovery, dispatch)
and of the assertion engine, with theorems checking the specification's
claims against the code.

Python strings are modelled as lists of characters (`Str`); Python's
reflection data (`dir`, `__dict__`, callability, `isinstance`/`issubclass`)
is modelled as explicit record fields.
-/

/-- Python strings, modelled as sequences of characters. -/
abbrev Str := List Char

/-- Python `line.startswith(c)` for a single-character prefix `c`. -/
def startsWithChar (c : Char) : Str → Bool
  | [] => false
  | c0 :: _ => c0 = c

/-- Python `str.splitlines()` restricted to texts whose line terminator is
a newline character: maximal newline-free segments, with no trailing empty
segment after a final newline (`splitlines "" = []`, `splitlines "a\n" = ["a"]`,
`splitlines "a\n\n" = ["a", ""]`). -/
def splitlines : Str → List Str
  | [] => []
  | c :: rest =>
    if c = '\n' then [] :: splitlines rest
    else
      match splitlines rest with
      | [] => [[c]]
      | l :: ls => (c :: l) :: ls

/-- Python `s.split(c)` for a single-character separator: keeps empty
segments, `split "" = [""]`. -/
def splitOnChar (sep : Char) : Str → List Str
  | [] => [[]]
  | c :: rest =>
    if c = sep then [] :: splitOnChar sep rest
    else
      match splitOnChar sep rest with
      | [] => [[c]]
      | l :: ls => (c :: l) :: ls

/-- `CLIHandler._parse_runlist` (src/testvibe/core/cli_handler.py:211-219),
applied to the file's content: split into lines, append each line that does
not start with the comment prefix `#` to the result, in order. -/
def parse_runlist (content : Str) : List Str :=
  (splitlines content).foldl
    (fun acc line => if startsWithChar '#' line then acc else acc ++ [line]) []

/-- The module-name computation inside `CLIHandler._run_tsuites`
(src/testvibe/core/cli_handler.py:95-105): if the suite identifier contains
a `/`, keep only the last `/`-separated component (`tsuite.split('/')[-1]`),
then drop the final three characters (`tsuite[:-3]`). -/
def moduleNameOf (tsuite : Str) : Str :=
  let t := if '/' ∈ tsuite then (splitOnChar '/' tsuite).getLastD [] else tsuite
  t.take (t.length - 3)

/-- A character of the class `[A-Za-z0-9_]` from `RE_VALID_NAME`. -/
def isWordChar (c : Char) : Bool :=
  ('A' ≤ c && c ≤ 'Z') || ('a' ≤ c && c ≤ 'z') || ('0' ≤ c && c ≤ '9') || c = '_'

/-- `CLIHandler._is_valid_name` (src/testvibe/core/cli_handler.py:165-167):
`re.match(r'^[A-Za-z0-9_]+$', s) is not None`.  In Python, `$` matches at
the end of the string or just before a single newline at the end of the
string, so the match succeeds iff the string, after removing one optional
trailing newline, is a nonempty run of word characters. -/
def is_valid_name (s : Str) : Bool :=
  let core := if s.getLast? = some '\n' then s.dropLast else s
  !core.isEmpty && core.all isWordChar

/-! ## The assertion engine

`testvibe/asserts.py` and `testvibe/testsuite.py` are not part of the
sources here; they are modelled from the specification and pinned down by
the repository's own tests (src/tests/test_asserts.py). -/

/-- Python values, as far as the assertion operations observe them. -/
inductive PyVal
  | vnone
  | vbool (b : Bool)
  | vint (n : Int)
  | vstr (s : Str)
deriving DecidableEq, Repr

/-- Python `==` on the modelled values (`True == 1`, `False == 0`). -/
def pyEq : PyVal → PyVal → Bool
  | .vnone, .vnone => true
  | .vbool b, .vbool c => b = c
  | .vint m, .vint n => m = n
  | .vstr s, .vstr t => s = t
  | .vbool b, .vint n => (if b then (1 : Int) else 0) = n
  | .vint n, .vbool b => n = (if b then (1 : Int) else 0)
  | _, _ => false

/-- Numeric view used by the ordered comparisons (Python treats `bool` as
an integer). -/
def asNumber : PyVal → Option Int
  | .vint n => some n
  | .vbool b => some (if b then 1 else 0)
  | _ => none

/-- Python `<=` on the modelled values (numeric operands only). -/
def pyLe (a b : PyVal) : Bool :=
  match asNumber a, asNumber b with
  | some x, some y => x ≤ y
  | _, _ => false

/-- Python `<` on the modelled values (numeric operands only). -/
def pyLt (a b : PyVal) : Bool :=
  match asNumber a, asNumber b with
  | some x, some y => x < y
  | _, _ => false

/-- Modelled from the spec: the failure kinds of the assertion engine, one
per `AssertionException*` class of the missing `testvibe/asserts.py`
(names as used by src/tests/test_asserts.py). -/
inductive AssertKind
  | equal | notEqual | isNull | isNotNull | isNotTrue | isNotFalse
  | isIn | notIn | greaterThan | greaterThanOrEqual
  | lesserThan | lesserThanOrEqual | isANumber
deriving DecidableEq, Repr

/-- Modelled from the spec: the per-suite-instance counter state of the
missing `testvibe/asserts.py` engine.  `passed` counts successful
assertions; `executed` counts every attempted assertion.  The repository's
own counter test (src/tests/test_asserts.py:295-306) fixes this reading:
three successes give `(3, 3)` and one further failure gives `(3, 4)`. -/
structure Asserts where
  passed : Nat
  executed : Nat
deriving DecidableEq, Repr

/-- A fresh engine: counters at (0, 0). -/
def Asserts.init : Asserts := ⟨0, 0⟩

/-- Modelled from the spec: one assertion call on the engine.  The
predicate is evaluated, exactly one counter update happens
(`executed` always, `passed` only on success), and on failure the typed
failure signal of the given kind is raised (returned as `some kind`). -/
def evalAssert (a : Asserts) (ok : Bool) (kind : AssertKind) :
    Asserts × Option AssertKind :=
  if ok then (⟨a.passed + 1, a.executed + 1⟩, none)
  else (⟨a.passed, a.executed + 1⟩, some kind)

/-- `get_assert_counters()`: the immutable counter snapshot. -/
def get_assert_counters (a : Asserts) : Nat × Nat := (a.passed, a.executed)

/-- `reset_assert_counter()`: both counters back to zero. -/
def reset_assert_counter (_ : Asserts) : Asserts := Asserts.init

/-- Modelled from the spec: `assert_equal`, success iff the operands are
equal under value equality, else failure of kind `equal`. -/
def assert_equal (a : Asserts) (v1 v2 : PyVal) : Asserts × Option AssertKind :=
  evalAssert a (pyEq v1 v2) .equal

/-- Modelled from the spec: `assert_not_equal`. -/
def assert_not_equal (a : Asserts) (v1 v2 : PyVal) : Asserts × Option AssertKind :=
  evalAssert a (!pyEq v1 v2) .notEqual

/-- Modelled from the spec: `assert_null`, success iff the operand is the
`None` sentinel. -/
def assert_null (a : Asserts) (v : PyVal) : Asserts × Option AssertKind :=
  evalAssert a (v = PyVal.vnone) .isNull

/-- Modelled from the spec: `assert_not_null`. -/
def assert_not_null (a : Asserts) (v : PyVal) : Asserts × Option AssertKind :=
  evalAssert a (v ≠ PyVal.vnone) .isNotNull

/-- Modelled from the spec: `assert_true`, success iff the operand is
boolean true. -/
def assert_true (a : Asserts) (v : PyVal) : Asserts × Option AssertKind :=
  evalAssert a (v = PyVal.vbool true) .isNotTrue

/-- Modelled from the spec: `assert_false`. -/
def assert_false (a : Asserts) (v : PyVal) : Asserts × Option AssertKind :=
  evalAssert a (v = PyVal.vbool false) .isNotFalse

/-- Modelled from the spec: `assert_in`, success iff the value is a member
of the collection. -/
def assert_in (a : Asserts) (v : PyVal) (l : List PyVal) :
    Asserts × Option AssertKind :=
  evalAssert a (l.any (pyEq v)) .isIn

/-- Modelled from the spec: `assert_not_in`. -/
def assert_not_in (a : Asserts) (v : PyVal) (l : List PyVal) :
    Asserts × Option AssertKind :=
  evalAssert a (!l.any (pyEq v)) .notIn

/-- Modelled from the spec: `assert_greater_than`. -/
def assert_greater_than (a : Asserts) (v1 v2 : PyVal) :
    Asserts × Option AssertKind :=
  evalAssert a (pyLt v2 v1) .greaterThan

/-- Modelled from the spec: `assert_greater_than_or_equal`. -/
def assert_greater_than_or_equal (a : Asserts) (v1 v2 : PyVal) :
    Asserts × Option AssertKind :=
  evalAssert a (pyLe v2 v1) .greaterThanOrEqual

/-- Modelled from the spec: `assert_lesser_than`. -/
def assert_lesser_than (a : Asserts) (v1 v2 : PyVal) :
    Asserts × Option AssertKind :=
  evalAssert a (pyLt v1 v2) .lesserThan

/-- Modelled from the spec: `assert_lesser_than_or_equal`. -/
def assert_lesser_than_or_equal (a : Asserts) (v1 v2 : PyVal) :
    Asserts × Option AssertKind :=
  evalAssert a (pyLe v1 v2) .lesserThanOrEqual

/-- Modelled from the spec: `assert_is_a_number`, success iff the operand
is an integer or floating-point numeric value (numeric-looking strings
excluded). -/
def assert_is_a_number (a : Asserts) (v : PyVal) : Asserts × Option AssertKind :=
  evalAssert a (match v with | .vint _ => true | _ => false) .isANumber

/-! Alias operations.  The spec and the repository tests
(src/tests/test_asserts.py:9-106, "just a link to assert_equal") describe
each alias as another name bound to the identical implementation. -/

/-- Modelled from the spec: alias of `assert_equal`. -/
def assert_eq : Asserts → PyVal → PyVal → Asserts × Option AssertKind :=
  assert_equal

/-- Modelled from the spec: alias of `assert_equal`. -/
def a_eq : Asserts → PyVal → PyVal → Asserts × Option AssertKind :=
  assert_equal

/-- Modelled from the spec: alias of `assert_not_equal`. -/
def assert_neq : Asserts → PyVal → PyVal → Asserts × Option AssertKind :=
  assert_not_equal

/-- Modelled from the spec: alias of `assert_not_equal`. -/
def a_neq : Asserts → PyVal → PyVal → Asserts × Option AssertKind :=
  assert_not_equal

/-- Modelled from the spec: alias of `assert_null`. -/
def a_null : Asserts → PyVal → Asserts × Option AssertKind := assert_null

/-- Modelled from the spec: alias of `assert_not_null`. -/
def a_not_null : Asserts → PyVal → Asserts × Option AssertKind := assert_not_null

/-- Modelled from the spec: alias of `assert_true`. -/
def a_true : Asserts → PyVal → Asserts × Option AssertKind := assert_true

/-- Modelled from the spec: alias of `assert_false`. -/
def a_false : Asserts → PyVal → Asserts × Option AssertKind := assert_false

/-- Modelled from the spec: alias of `assert_in`. -/
def a_in : Asserts → PyVal → List PyVal → Asserts × Option AssertKind := assert_in

/-- Modelled from the spec: alias of `assert_not_in`. -/
def a_not_in : Asserts → PyVal → List PyVal → Asserts × Option AssertKind :=
  assert_not_in

/-- Modelled from the spec: alias of `assert_greater_than`. -/
def assert_gt : Asserts → PyVal → PyVal → Asserts × Option AssertKind :=
  assert_greater_than

/-- Modelled from the spec: alias of `assert_greater_than`. -/
def a_gt : Asserts → PyVal → PyVal → Asserts × Option AssertKind :=
  assert_greater_than

/-- Modelled from the spec: alias of `assert_greater_than_or_equal`. -/
def assert_gte : Asserts → PyVal → PyVal → Asserts × Option AssertKind :=
  assert_greater_than_or_equal

/-- Modelled from the spec: alias of `assert_greater_than_or_equal`. -/
def a_gte : Asserts → PyVal → PyVal → Asserts × Option AssertKind :=
  assert_greater_than_or_equal

/-- Modelled from the spec: alias of `assert_lesser_than`. -/
def assert_lt : Asserts → PyVal → PyVal → Asserts × Option AssertKind :=
  assert_lesser_than

/-- Modelled from the spec: alias of `assert_lesser_than`. -/
def a_lt : Asserts → PyVal → PyVal → Asserts × Option AssertKind :=
  assert_lesser_than

/-- Modelled from the spec: alias of `assert_lesser_than_or_equal`. -/
def assert_lte : Asserts → PyVal → PyVal → Asserts × Option AssertKind :=
  assert_lesser_than_or_equal

/-- Modelled from the spec: alias of `assert_lesser_than_or_equal`. -/
def a_lte : Asserts → PyVal → PyVal → Asserts × Option AssertKind :=
  assert_lesser_than_or_equal

/-- Modelled from the spec: alias of `assert_is_a_number`. -/
def assert_is_n : Asserts → PyVal → Asserts × Option AssertKind :=
  assert_is_a_number

/-- Modelled from the spec: alias of `assert_is_a_number`. -/
def a_is_n : Asserts → PyVal → Asserts × Option AssertKind := assert_is_a_number

/-! ## Sequences of assertion calls -/

/-- One assertion call, as issued by a test-case body. -/
inductive ACall
  | equal (v1 v2 : PyVal)
  | notEqual (v1 v2 : PyVal)
  | null (v : PyVal)
  | notNull (v : PyVal)
  | isTrue (v : PyVal)
  | isFalse (v : PyVal)
  | isIn (v : PyVal) (l : List PyVal)
  | notIn (v : PyVal) (l : List PyVal)
  | gt (v1 v2 : PyVal)
  | gte (v1 v2 : PyVal)
  | lt (v1 v2 : PyVal)
  | lte (v1 v2 : PyVal)
  | isANumber (v : PyVal)
deriving DecidableEq, Repr

/-- Dispatch one assertion call to the engine operation it names. -/
def applyCall (a : Asserts) : ACall → Asserts × Option AssertKind
  | .equal v1 v2 => assert_equal a v1 v2
  | .notEqual v1 v2 => assert_not_equal a v1 v2
  | .null v => assert_null a v
  | .notNull v => assert_not_null a v
  | .isTrue v => assert_true a v
  | .isFalse v => assert_false a v
  | .isIn v l => assert_in a v l
  | .notIn v l => assert_not_in a v l
  | .gt v1 v2 => assert_greater_than a v1 v2
  | .gte v1 v2 => assert_greater_than_or_equal a v1 v2
  | .lt v1 v2 => assert_lesser_than a v1 v2
  | .lte v1 v2 => assert_lesser_than_or_equal a v1 v2
  | .isANumber v => assert_is_a_number a v

/-- Whether the call's predicate holds, i.e. the assertion succeeds. -/
def callOk : ACall → Bool
  | .equal v1 v2 => pyEq v1 v2
  | .notEqual v1 v2 => !pyEq v1 v2
  | .null v => v = PyVal.vnone
  | .notNull v => v ≠ PyVal.vnone
  | .isTrue v => v = PyVal.vbool true
  | .isFalse v => v = PyVal.vbool false
  | .isIn v l => l.any (pyEq v)
  | .notIn v l => !l.any (pyEq v)
  | .gt v1 v2 => pyLt v2 v1
  | .gte v1 v2 => pyLe v2 v1
  | .lt v1 v2 => pyLt v1 v2
  | .lte v1 v2 => pyLe v1 v2
  | .isANumber v => match v with | .vint _ => true | _ => false

/-- Run a sequence of assertion calls with every failure signal caught by
the caller (as the counter test of the repository does): each call is
attempted and the engine state threads through all of them. -/
def runCalls (a : Asserts) (cs : List ACall) : Asserts :=
  cs.foldl (fun st c => (applyCall st c).1) a

/-- Number of failing calls in a sequence. -/
def failuresOf (cs : List ACall) : Nat := (cs.filter (fun c => !callOk c)).length

/-- Number of successful calls in a sequence. -/
def successesOf (cs : List ACall) : Nat := (cs.filter callOk).length

/-- Run a sequence of assertion calls with failure signals uncaught: the
first failing call updates the counters and then aborts the rest of the
sequence, returning the raised kind. -/
def runCallsE (a : Asserts) : List ACall → Asserts × Option AssertKind
  | [] => (a, none)
  | c :: cs =>
    match applyCall a c with
    | (a1, none) => runCallsE a1 cs
    | (a1, some k) => (a1, some k)

/-- A test-case body, observed as the sequence of assertion calls it makes. -/
abbrev TCase := List ACall

/-- The per-suite-class dispatch loop of `CLIHandler._run_tsuites`
(src/testvibe/core/cli_handler.py:115-122): construct one fresh instance
(engine at (0, 0)) and invoke every discovered test case on that same
instance; an uncaught assertion failure propagates and stops the run. -/
def dispatchTCases (a : Asserts) : List TCase → Asserts × Option AssertKind
  | [] => (a, none)
  | t :: ts =>
    match runCallsE a t with
    | (a1, none) => dispatchTCases a1 ts
    | (a1, some k) => (a1, some k)

/-- One fresh suite instance running all its test cases. -/
def run_suite_instance (tcases : List TCase) : Asserts × Option AssertKind :=
  dispatchTCases Asserts.init tcases

/-! ## Discovery: test cases, suite classes, and the run command -/

/-- A Python class as `CLIHandler._get_all_tcases` observes it: the names
`dir(cl)` enumerates (own and inherited), the keys of the class's own
`__dict__`, and which attribute names resolve to callables. -/
structure PyClass where
  dirNames : List Str
  ownNames : List Str
  callableOf : Str → Bool

/-- `CLIHandler._get_all_tcases` (src/testvibe/core/cli_handler.py:190-200):
keep a `dir(cl)` name iff it does not start with an underscore, is not a
reserved name, is in the class's own `__dict__`, and is callable.  The
resulting test-case set is represented by the attribute names kept. -/
def get_all_tcases (reserved : List Str) (cl : PyClass) : List Str :=
  cl.dirNames.filter (fun o =>
    !startsWithChar '_' o && !(reserved.contains o) &&
      cl.ownNames.contains o && cl.callableOf o)

/-- A symbol of a resolved module as `CLIHandler._get_all_tsuite_classes`
observes it: its name, whether `getattr(module, name)` is a type object,
and whether that object is a subclass of `testvibe.Testsuite`.
`declaredInModule` records whether the symbol is declared in the module
itself rather than imported into it; the code never reads it — it is
carried only so the specification's claims about declaration sites can be
stated. -/
structure PySym where
  name : Str
  isTypeObj : Bool
  subclassOfTestsuite : Bool
  declaredInModule : Bool
deriving DecidableEq, Repr

/-- A resolved module: the symbols `dir(module)` enumerates. -/
structure PyModule where
  syms : List PySym
deriving DecidableEq, Repr

/-- `CLIHandler._get_all_tsuite_classes`
(src/testvibe/core/cli_handler.py:202-209): keep a module symbol iff it is
a type object and a subclass of `testvibe.Testsuite`. -/
def get_all_tsuite_classes (m : PyModule) : List PySym :=
  m.syms.filter (fun s => s.isTypeObj && s.subclassOfTestsuite)

/-- The two discovery-error exits of the `run` command; each is a
`sys.stderr.write` followed by `sys.exit(1)` in the code. -/
inductive RunError
  | noRunlistsFound
  | noSuitesFound
deriving DecidableEq, Repr

/-- The discovery part of `CLIHandler._run_tsuites`
(src/testvibe/core/cli_handler.py:88-122): for each suite identifier in
order, resolve the module named by `moduleNameOf` within the test group
and collect its suite classes; exit with `noSuitesFound` as soon as a
module yields none.  Module import is the host's resolver, abstracted as
the function `resolve`. -/
def run_tsuites (resolve : Str → PyModule) :
    List Str → Except RunError (List (List PySym))
  | [] => .ok []
  | t :: ts =>
    let classes := get_all_tsuite_classes (resolve (moduleNameOf t))
    if classes.length = 0 then .error .noSuitesFound
    else
      match run_tsuites resolve ts with
      | .ok rest => .ok (classes :: rest)
      | .error e => .error e

/-- The test-group computation in `CLIHandler.cmd_run`
(src/testvibe/core/cli_handler.py:76-86): the first path component when
the run-list path contains a `/`, else the name of the current working
directory. -/
def tgroupOf (cwdName rl : Str) : Str :=
  if '/' ∈ rl then (splitOnChar '/' rl).headD [] else cwdName

/-- The loop body of `CLIHandler.cmd_run` for one run-list path
(src/testvibe/core/cli_handler.py:76-86): parse the run-list's content
and run its suites within the test group. -/
def run_one_runlist (cwdName : Str) (contentOf : Str → Str)
    (resolve : Str → Str → PyModule) (rl : Str) :
    Except RunError (List (List PySym)) :=
  run_tsuites (resolve (tgroupOf cwdName rl)) (parse_runlist (contentOf rl))

/-- Sequential processing of the collected run-lists inside
`CLIHandler.cmd_run`: each run-list is handled in turn, stopping at the
first error. -/
def run_all_runlists (cwdName : Str) (contentOf : Str → Str)
    (resolve : Str → Str → PyModule) :
    List Str → Except RunError (List (List PySym))
  | [] => .ok []
  | rl :: rls =>
    match run_one_runlist cwdName contentOf resolve rl with
    | .ok classes =>
      match run_all_runlists cwdName contentOf resolve rls with
      | .ok rest => .ok (classes ++ rest)
      | .error e => .error e
    | .error e => .error e

/-- `CLIHandler.cmd_run` (src/testvibe/core/cli_handler.py:71-86): exit
with `noRunlistsFound` when the collected run-list set is empty, else
process each run-list in turn. -/
def cmd_run (cwdName : Str) (contentOf : Str → Str)
    (resolve : Str → Str → PyModule) (runlists : List Str) :
    Except RunError (List (List PySym)) :=
  if runlists.length = 0 then .error .noRunlistsFound
  else run_all_runlists cwdName contentOf resolve runlists

/-- A parsed CLI invocation, as far as `CLIHandler.execute` inspects it. -/
inductive Cmd
  | startproject (name : Str)
  | addtestgroup (name : Str)
  | run
deriving DecidableEq, Repr

/-- The outcome of the name-validation gate in `CLIHandler.execute`
(src/testvibe/core/cli_handler.py:54-69): for the commands that carry a
name argument, an invalid name writes an error to stderr and exits with
status 1 before the command body runs; otherwise the command proceeds. -/
inductive ExecGate
  | exitError (status : Nat)
  | proceeded
deriving DecidableEq, Repr

/-- `CLIHandler.execute`'s dispatch on the command and its name check. -/
def execute (c : Cmd) : ExecGate :=
  match c with
  | .startproject n => if is_valid_name n then .proceeded else .exitError 1
  | .addtestgroup n => if is_valid_name n then .proceeded else .exitError 1
  | .run => .proceeded

/-! ## Theorems -/

/-- The failure kind a call raises when its predicate is false. -/
def kindOf : ACall → AssertKind
  | .equal _ _ => .equal
  | .notEqual _ _ => .notEqual
  | .null _ => .isNull
  | .notNull _ => .isNotNull
  | .isTrue _ => .isNotTrue
  | .isFalse _ => .isNotFalse
  | .isIn _ _ => .isIn
  | .notIn _ _ => .notIn
  | .gt _ _ => .greaterThan
  | .gte _ _ => .greaterThanOrEqual
  | .lt _ _ => .lesserThan
  | .lte _ _ => .lesserThanOrEqual
  | .isANumber _ => .isANumber

theorem applyCall_eq (a : Asserts) (c : ACall) :
    applyCall a c =
      (⟨a.passed + (if callOk c then 1 else 0), a.executed + 1⟩,
        if callOk c then none else some (kindOf c)) := by
  cases c <;>
    simp only [applyCall, assert_equal, assert_not_equal, assert_null,
      assert_not_null, assert_true, assert_false, assert_in, assert_not_in,
      assert_greater_than, assert_greater_than_or_equal, assert_lesser_than,
      assert_lesser_than_or_equal, assert_is_a_number, evalAssert, callOk,
      kindOf] <;>
    split <;> simp_all

theorem runCalls_counters (cs : List ACall) (a : Asserts) :
    runCalls a cs = ⟨a.passed + successesOf cs, a.executed + cs.length⟩ := by
  induction cs generalizing a with
  | nil => simp [runCalls, successesOf]
  | cons c cs ih =>
    simp only [runCalls, List.foldl_cons] at *
    rw [show ((applyCall a c).1 : Asserts)
        = ⟨a.passed + (if callOk c then 1 else 0), a.executed + 1⟩ by
      rw [applyCall_eq]]
    rw [ih]
    simp only [successesOf, List.filter, List.length_cons]
    cases h : callOk c <;> simp [h] <;> omega

theorem successes_add_failures (cs : List ACall) :
    successesOf cs + failuresOf cs = cs.length := by
  induction cs with
  | nil => rfl
  | cons c cs ih =>
    simp only [successesOf, failuresOf, List.filter, List.length_cons] at *
    cases h : callOk c <;> simp [h] <;> omega

/-- Claim C1: on a fresh suite instance with counters at (0, 0), a successful
`equal(9, 9)` moves `get_counters()` to (1, 1); two further successes (a
null check and a less-or-equal) move it to (3, 3); a subsequent failing
`contains` raises the `In`-kind failure and moves it to (3, 4).  In
general a call increments the second counter always and the first counter
only when its predicate succeeds. -/
theorem counters_scenario :
    get_assert_counters Asserts.init = (0, 0) ∧
    get_assert_counters
      (runCalls Asserts.init [ACall.equal (.vint 9) (.vint 9)]) = (1, 1) ∧
    get_assert_counters
      (runCalls Asserts.init
        [ACall.equal (.vint 9) (.vint 9), ACall.null .vnone,
          ACall.lte (.vint 7) (.vint 9)]) = (3, 3) ∧
    (applyCall
      (runCalls Asserts.init
        [ACall.equal (.vint 9) (.vint 9), ACall.null .vnone,
          ACall.lte (.vint 7) (.vint 9)])
      (ACall.isIn (.vint 3) [.vint 1, .vint 2, .vint 4])).2
        = some AssertKind.isIn ∧
    get_assert_counters
      (runCalls Asserts.init
        [ACall.equal (.vint 9) (.vint 9), ACall.null .vnone,
          ACall.lte (.vint 7) (.vint 9),
          ACall.isIn (.vint 3) [.vint 1, .vint 2, .vint 4]]) = (3, 4) ∧
    (∀ (a : Asserts) (c : ACall),
      (applyCall a c).1
        = ⟨a.passed + (if callOk c then 1 else 0), a.executed + 1⟩) := by
  refine ⟨by decide, by decide, by decide, by decide, by decide, ?_⟩
  intro a c
  rw [applyCall_eq]

/-- Claim C2 counterexample: the claim predicts that after one assertion call
with zero failures `get_counters()` is `(1, 0)` (attempts, failures), but
one successful `equal(9, 9)` yields `(1, 1)`. -/
theorem counters_attempts_failures_counterexample :
    failuresOf [ACall.equal (.vint 9) (.vint 9)] = 0 ∧
    [ACall.equal (.vint 9) (.vint 9)].length = 1 ∧
    get_assert_counters
      (runCalls Asserts.init [ACall.equal (.vint 9) (.vint 9)]) = (1, 1) ∧
    get_assert_counters
      (runCalls Asserts.init [ACall.equal (.vint 9) (.vint 9)]) ≠ (1, 0) := by
  decide

/-- Claim C2 (amended): for every sequence of assertion calls, after `n` total
calls of which `k` failed, `get_counters()` returns `(n - k, n)` — the
first component counts the successful assertions and the second counts
every attempted assertion. -/
theorem counters_successes_attempts (cs : List ACall) :
    get_assert_counters (runCalls Asserts.init cs)
      = (cs.length - failuresOf cs, cs.length) ∧
    successesOf cs + failuresOf cs = cs.length := by
  have h := successes_add_failures cs
  refine ⟨?_, h⟩
  have h3 : get_assert_counters (runCalls Asserts.init cs)
      = (0 + successesOf cs, 0 + cs.length) := by
    rw [runCalls_counters cs Asserts.init]
    rfl
  rw [h3, Prod.mk.injEq]
  omega

/-- Claim C5: every alias operation is the identical operation as its canonical
assertion: on every engine state and all operands it returns the same
updated counters and the same failure signal (hence succeeds on exactly
the same inputs and raises exactly the same failure kind). -/
theorem alias_ops_identical :
    (∀ a v1 v2, assert_eq a v1 v2 = assert_equal a v1 v2) ∧
    (∀ a v1 v2, a_eq a v1 v2 = assert_equal a v1 v2) ∧
    (∀ a v1 v2, assert_neq a v1 v2 = assert_not_equal a v1 v2) ∧
    (∀ a v1 v2, a_neq a v1 v2 = assert_not_equal a v1 v2) ∧
    (∀ a v, a_null a v = assert_null a v) ∧
    (∀ a v, a_not_null a v = assert_not_null a v) ∧
    (∀ a v, a_true a v = assert_true a v) ∧
    (∀ a v, a_false a v = assert_false a v) ∧
    (∀ a v l, a_in a v l = assert_in a v l) ∧
    (∀ a v l, a_not_in a v l = assert_not_in a v l) ∧
    (∀ a v1 v2, assert_gt a v1 v2 = assert_greater_than a v1 v2) ∧
    (∀ a v1 v2, a_gt a v1 v2 = assert_greater_than a v1 v2) ∧
    (∀ a v1 v2, assert_gte a v1 v2 = assert_greater_than_or_equal a v1 v2) ∧
    (∀ a v1 v2, a_gte a v1 v2 = assert_greater_than_or_equal a v1 v2) ∧
    (∀ a v1 v2, assert_lt a v1 v2 = assert_lesser_than a v1 v2) ∧
    (∀ a v1 v2, a_lt a v1 v2 = assert_lesser_than a v1 v2) ∧
    (∀ a v1 v2, assert_lte a v1 v2 = assert_lesser_than_or_equal a v1 v2) ∧
    (∀ a v1 v2, a_lte a v1 v2 = assert_lesser_than_or_equal a v1 v2) ∧
    (∀ a v, assert_is_n a v = assert_is_a_number a v) ∧
    (∀ a v, a_is_n a v = assert_is_a_number a v) := by
  repeat' apply And.intro
  all_goals intros
  all_goals rfl

/-- Claim C3: test-case discovery returns exactly the attribute names that are
not underscore-prefixed, not reserved, present in the class's own
`__dict__` (not merely inherited), and callable; consequently no reserved,
private, or inherited name is ever classified as a test case. -/
theorem tcase_discovery_exact (reserved : List Str) (cl : PyClass)
    (name : Str) :
    name ∈ get_all_tcases reserved cl ↔
      name ∈ cl.dirNames ∧ !startsWithChar '_' name ∧ name ∉ reserved ∧
        name ∈ cl.ownNames ∧ cl.callableOf name := by
  simp only [get_all_tcases, List.mem_filter, Bool.and_eq_true,
    Bool.not_eq_true', List.contains, List.elem_eq_mem,
    decide_eq_false_iff_not, decide_eq_true_eq, Bool.not_eq_true]
  tauto

/-- A suite class imported into a module but not declared in it: a type
object subclassing `testvibe.Testsuite` whose declaration site is another
module. -/
def importedSuiteSym : PySym :=
  ⟨['I', 'm', 'p', 'o', 'r', 't', 'e', 'd'], true, true, false⟩

/-- A module that declares one suite class of its own and imports another. -/
def moduleWithImport : PyModule :=
  ⟨[⟨['O', 'w', 'n'], true, true, true⟩, importedSuiteSym]⟩

/-- Claim C4 counterexample: the claim says classes not declared in the module
itself (e.g. imported into it) are excluded from suite-class discovery,
but `_get_all_tsuite_classes` tests only `isinstance(co, type)` and
`issubclass(co, testvibe.Testsuite)`, so an imported suite class is
returned. -/
theorem suite_discovery_declared_counterexample :
    importedSuiteSym ∈ get_all_tsuite_classes moduleWithImport ∧
    importedSuiteSym.declaredInModule = false := by
  decide

/-- Claim C4 (amended): a module symbol is returned by suite-class discovery iff
it is a type object and a subclass of `testvibe.Testsuite`, regardless of
whether it is declared in the module or imported into it. -/
theorem suite_discovery_exact (m : PyModule) (s : PySym) :
    s ∈ get_all_tsuite_classes m ↔
      s ∈ m.syms ∧ s.isTypeObj ∧ s.subclassOfTestsuite := by
  simp [get_all_tsuite_classes, List.mem_filter]

theorem parse_runlist_foldl (ls : List Str) (acc : List Str) :
    ls.foldl
        (fun acc line =>
          if startsWithChar '#' line then acc else acc ++ [line]) acc
      = acc ++ ls.filter (fun l => !startsWithChar '#' l) := by
  induction ls generalizing acc with
  | nil => simp
  | cons l ls ih =>
    simp only [List.foldl_cons, List.filter_cons]
    cases h : startsWithChar '#' l <;> simp [h, ih]

/-- Claim C6: run-list parsing returns, in order and with duplicates, exactly
the lines of the text whose first character is not `#`; a blank line is
kept as a literal empty identifier.  Concretely, `# comment` followed by
`mysuite` parses to exactly `('mysuite',)`, and a blank line between two
identifiers is returned as an empty identifier. -/
theorem parse_runlist_exact (c : Str) :
    parse_runlist c = (splitlines c).filter (fun l => !startsWithChar '#' l) ∧
    parse_runlist ("# comment\nmysuite".data) = ["mysuite".data] ∧
    parse_runlist ("mysuite\n\nother".data)
      = ["mysuite".data, [], "other".data] := by
  refine ⟨?_, by decide, by decide⟩
  rw [parse_runlist]
  rw [parse_runlist_foldl]
  simp

theorem runCallsE_append (a : Asserts) (xs ys : List ACall) :
    runCallsE a (xs ++ ys)
      = match runCallsE a xs with
        | (a1, none) => runCallsE a1 ys
        | (a1, some k) => (a1, some k) := by
  induction xs generalizing a with
  | nil => simp [runCallsE]
  | cons c cs ih =>
    simp only [List.cons_append, runCallsE]
    cases h : applyCall a c with
    | mk a1 sig =>
      cases sig with
      | none => simpa using ih a1
      | some k => simp

theorem dispatchTCases_flatten (a : Asserts) (ts : List TCase) :
    dispatchTCases a ts = runCallsE a ts.flatten := by
  induction ts generalizing a with
  | nil => simp [dispatchTCases, runCallsE]
  | cons t ts ih =>
    rw [List.flatten_cons, runCallsE_append]
    simp only [dispatchTCases]
    cases h : runCallsE a t with
    | mk a1 sig =>
      cases sig with
      | none => exact ih a1
      | some k => rfl

/-- Claim C7: running a discovered suite — one fresh instance whose test cases
are all invoked on that same instance — behaves exactly like running the
concatenation of all the test cases' assertion calls on a single engine
that starts at (0, 0): counters accumulate across the suite's test cases
and are never reset between them. -/
theorem one_instance_accumulates (tcases : List TCase) :
    run_suite_instance tcases = runCallsE Asserts.init tcases.flatten :=
  dispatchTCases_flatten Asserts.init tcases

theorem run_tsuites_error_iff (resolve : Str → PyModule) (ts : List Str) :
    ∀ e : RunError, run_tsuites resolve ts = .error e ↔
      e = .noSuitesFound ∧ ∃ t ∈ ts,
        get_all_tsuite_classes (resolve (moduleNameOf t)) = [] := by
  induction ts with
  | nil => simp [run_tsuites]
  | cons t ts ih =>
    intro e
    simp only [run_tsuites]
    by_cases h : (get_all_tsuite_classes (resolve (moduleNameOf t))).length = 0
    · rw [if_pos h]
      have h0 : get_all_tsuite_classes (resolve (moduleNameOf t)) = [] :=
        List.length_eq_zero.mp h
      constructor
      · intro he
        exact ⟨(Except.error.inj he).symm, t, List.mem_cons_self t ts, h0⟩
      · rintro ⟨he, -⟩
        rw [he]
    · rw [if_neg h]
      have h0 : ¬ get_all_tsuite_classes (resolve (moduleNameOf t)) = [] := by
        intro hc
        exact h (by rw [hc]; rfl)
      cases hrec : run_tsuites resolve ts with
      | ok rest =>
        simp only [hrec]
        constructor
        · intro he
          cases he
        · rintro ⟨he, u, hu, hcl⟩
          rcases List.mem_cons.mp hu with rfl | hu2
          · exact absurd hcl h0
          · have : run_tsuites resolve ts = .error e :=
              (ih e).mpr ⟨he, u, hu2, hcl⟩
            rw [this] at hrec
            cases hrec
      | error e2 =>
        simp only [hrec]
        have h2 := (ih e2).mp hrec
        constructor
        · intro he
          have he2 : e2 = e := Except.error.inj he
          subst he2
          rcases h2 with ⟨he, u, hu, hcl⟩
          exact ⟨he, u, List.mem_cons_of_mem t hu, hcl⟩
        · rintro ⟨he, -⟩
          rw [he, h2.1]

theorem run_one_runlist_error_iff (cwdName : Str) (contentOf : Str → Str)
    (resolve : Str → Str → PyModule) (rl : Str) (e : RunError) :
    run_one_runlist cwdName contentOf resolve rl = .error e ↔
      e = .noSuitesFound ∧ ∃ t ∈ parse_runlist (contentOf rl),
        get_all_tsuite_classes
          (resolve (tgroupOf cwdName rl) (moduleNameOf t)) = [] :=
  run_tsuites_error_iff (resolve (tgroupOf cwdName rl))
    (parse_runlist (contentOf rl)) e

theorem run_all_runlists_error_iff (cwdName : Str) (contentOf : Str → Str)
    (resolve : Str → Str → PyModule) (rls : List Str) :
    ∀ e : RunError, run_all_runlists cwdName contentOf resolve rls = .error e ↔
      e = .noSuitesFound ∧ ∃ rl ∈ rls, ∃ t ∈ parse_runlist (contentOf rl),
        get_all_tsuite_classes
          (resolve (tgroupOf cwdName rl) (moduleNameOf t)) = [] := by
  induction rls with
  | nil => simp [run_all_runlists]
  | cons rl rls ih =>
    intro e
    simp only [run_all_runlists]
    cases h1 : run_one_runlist cwdName contentOf resolve rl with
    | error e1 =>
      have hc := (run_one_runlist_error_iff cwdName contentOf resolve rl e1).mp h1
      constructor
      · intro he
        have : e1 = e := Except.error.inj he
        subst this
        exact ⟨hc.1, rl, List.mem_cons_self rl rls, hc.2⟩
      · rintro ⟨he, -⟩
        rw [he, hc.1]
    | ok c1 =>
      have hnone : ∀ u ∈ parse_runlist (contentOf rl),
          get_all_tsuite_classes
            (resolve (tgroupOf cwdName rl) (moduleNameOf u)) ≠ [] := by
        intro u hu hcl
        have : run_one_runlist cwdName contentOf resolve rl
            = .error .noSuitesFound :=
          (run_one_runlist_error_iff cwdName contentOf resolve rl
            .noSuitesFound).mpr ⟨rfl, u, hu, hcl⟩
        rw [this] at h1
        cases h1
      cases hrec : run_all_runlists cwdName contentOf resolve rls with
      | ok rest =>
        simp only [hrec]
        constructor
        · intro he
          cases he
        · rintro ⟨he, u, hu, v, hv, hcl⟩
          rcases List.mem_cons.mp hu with rfl | hu2
          · exact (hnone v hv hcl).elim
          · have : run_all_runlists cwdName contentOf resolve rls = .error e :=
              (ih e).mpr ⟨he, u, hu2, v, hv, hcl⟩
            rw [this] at hrec
            cases hrec
      | error e2 =>
        simp only [hrec]
        have h2 := (ih e2).mp hrec
        constructor
        · intro he
          have : e2 = e := Except.error.inj he
          subst this
          rcases h2 with ⟨he2, u, hu, v, hv, hcl⟩
          exact ⟨he2, u, List.mem_cons_of_mem rl hu, v, hv, hcl⟩
        · rintro ⟨he, -⟩
          rw [he, h2.1]

/-- Claim C8: the run command reports an error (stderr message and exit status
1) in exactly two discovery situations — `noRunlistsFound` exactly when
the collected run-list set is empty, and `noSuitesFound` exactly when
some suite identifier of some run-list resolves to a module with zero
suite classes; otherwise the run proceeds normally. -/
theorem cmd_run_error_conditions (cwdName : Str) (contentOf : Str → Str)
    (resolve : Str → Str → PyModule) (runlists : List Str) :
    (cmd_run cwdName contentOf resolve runlists
        = .error .noRunlistsFound ↔ runlists = []) ∧
    (cmd_run cwdName contentOf resolve runlists
        = .error .noSuitesFound ↔
      ∃ rl ∈ runlists, ∃ t ∈ parse_runlist (contentOf rl),
        get_all_tsuite_classes
          (resolve (tgroupOf cwdName rl) (moduleNameOf t)) = []) ∧
    ((∃ r, cmd_run cwdName contentOf resolve runlists = .ok r) ↔
      runlists ≠ [] ∧ ∀ rl ∈ runlists, ∀ t ∈ parse_runlist (contentOf rl),
        get_all_tsuite_classes
          (resolve (tgroupOf cwdName rl) (moduleNameOf t)) ≠ []) := by
  by_cases hemp : runlists.length = 0
  · have hnil : runlists = [] := List.length_eq_zero.mp hemp
    subst hnil
    refine ⟨by simp [cmd_run], by simp [cmd_run], by simp [cmd_run]⟩
  · have hne : runlists ≠ [] := by
      intro hc
      rw [hc] at hemp
      exact hemp rfl
    have hcr : cmd_run cwdName contentOf resolve runlists
        = run_all_runlists cwdName contentOf resolve runlists := by
      simp [cmd_run, hemp]
    rw [hcr]
    refine ⟨?_, ?_, ?_⟩
    · constructor
      · intro he
        have := (run_all_runlists_error_iff cwdName contentOf resolve
          runlists .noRunlistsFound).mp he
        cases this.1
      · intro hc
        exact absurd hc hne
    · rw [run_all_runlists_error_iff cwdName contentOf resolve runlists
        .noSuitesFound]
      simp
    · cases hres : run_all_runlists cwdName contentOf resolve runlists with
      | ok r =>
        constructor
        · intro _
          refine ⟨hne, ?_⟩
          intro rl hrl t ht hcl
          have : run_all_runlists cwdName contentOf resolve runlists
              = .error .noSuitesFound :=
            (run_all_runlists_error_iff cwdName contentOf resolve runlists
              .noSuitesFound).mpr ⟨rfl, rl, hrl, t, ht, hcl⟩
          rw [this] at hres
          cases hres
        · intro _
          exact ⟨r, rfl⟩
      | error e =>
        have h2 := (run_all_runlists_error_iff cwdName contentOf resolve
          runlists e).mp hres
        constructor
        · rintro ⟨r, hr⟩
          cases hr
        · rintro ⟨-, hall⟩
          rcases h2 with ⟨-, rl, hrl, t, ht, hcl⟩
          exact absurd hcl (hall rl hrl t ht)

/-- The acceptance predicate as the specification words it: the whole
string is one or more ASCII letters, digits or underscores and nothing
else. -/
def spec_name_ok (s : Str) : Bool := !s.isEmpty && s.all isWordChar

theorem is_valid_name_iff (s : Str) :
    is_valid_name s = true ↔
      spec_name_ok s = true ∨
        ∃ w, s = w ++ ['\n'] ∧ spec_name_ok w = true := by
  induction s using List.reverseRecOn with
  | nil =>
    constructor
    · intro h
      cases h
    · rintro (h | ⟨w, hw, -⟩)
      · cases h
      · exact absurd hw.symm (List.append_ne_nil_of_right_ne_nil w (by simp))
  | append_singleton ws c _ =>
    by_cases hc : c = '\n'
    · subst hc
      have hval : is_valid_name (ws ++ ['\n']) = spec_name_ok ws := by
        simp only [is_valid_name, spec_name_ok, List.getLast?_concat,
          List.dropLast_concat]
        simp
      have hspec : spec_name_ok (ws ++ ['\n']) = false := by
        simp [spec_name_ok, List.all_append, isWordChar]
      rw [hval, hspec]
      constructor
      · intro h
        exact Or.inr ⟨ws, rfl, h⟩
      · rintro (h | ⟨w, hw, h⟩)
        · cases h
        · have : ws = w := List.append_cancel_right hw
          rw [this]
          exact h
    · have hval : is_valid_name (ws ++ [c]) = spec_name_ok (ws ++ [c]) := by
        simp only [is_valid_name, spec_name_ok, List.getLast?_concat]
        rw [if_neg (by simpa using hc)]
      rw [hval]
      constructor
      · exact Or.inl
      · rintro (h | ⟨w, hw, -⟩)
        · exact h
        · have h1 : (ws ++ [c]).getLast? = some c := List.getLast?_concat ws
          rw [hw, List.getLast?_concat] at h1
          exact absurd (Option.some.inj h1) (fun hcc => hc hcc.symm)

/-- Claim C9 counterexample: the name `abc\n` is not one or more word characters
and nothing else, yet `startproject` accepts it — Python's `re.match` with
a `$` anchor also matches just before a trailing newline, so the command
proceeds instead of exiting. -/
theorem name_validation_counterexample :
    execute (Cmd.startproject ("abc\n".data)) = ExecGate.proceeded ∧
    spec_name_ok ("abc\n".data) = false := by
  decide

/-- Claim C9 (amended): `startproject` and `addtestgroup` accept a name iff it
is one or more characters of `[A-Za-z0-9_]`, optionally followed by one
trailing newline; every other name makes the process exit with status 1
(the only two outcomes being acceptance and the status-1 exit). -/
theorem name_validation_amended (s : Str) :
    (execute (Cmd.startproject s) = ExecGate.proceeded ↔
      spec_name_ok s = true ∨
        ∃ w, s = w ++ ['\n'] ∧ spec_name_ok w = true) ∧
    (execute (Cmd.addtestgroup s) = ExecGate.proceeded ↔
      spec_name_ok s = true ∨
        ∃ w, s = w ++ ['\n'] ∧ spec_name_ok w = true) ∧
    (execute (Cmd.startproject s) = ExecGate.proceeded ∨
      execute (Cmd.startproject s) = ExecGate.exitError 1) ∧
    (execute (Cmd.addtestgroup s) = ExecGate.proceeded ∨
      execute (Cmd.addtestgroup s) = ExecGate.exitError 1) := by
  have hiff := is_valid_name_iff s
  refine ⟨?_, ?_, ?_, ?_⟩ <;>
    simp only [execute] <;>
    by_cases h : is_valid_name s = true
  · rw [if_pos h]
    simpa using hiff.mp h
  · rw [if_neg h]
    constructor
    · intro hc
      cases hc
    · intro hr
      exact absurd (hiff.mpr hr) h
  · rw [if_pos h]
    simpa using hiff.mp h
  · rw [if_neg h]
    constructor
    · intro hc
      cases hc
    · intro hr
      exact absurd (hiff.mpr hr) h
  · rw [if_pos h]
    exact Or.inl rfl
  · rw [if_neg h]
    exact Or.inr rfl
  · rw [if_pos h]
    exact Or.inl rfl
  · rw [if_neg h]
    exact Or.inr rfl

theorem splitOnChar_not_mem (sep : Char) (s : Str) (h : sep ∉ s) :
    splitOnChar sep s = [s] := by
  induction s with
  | nil => rfl
  | cons c cs ih =>
    have hc : ¬ c = sep := fun hc => h (hc ▸ List.mem_cons_self c cs)
    have hcs : sep ∉ cs := fun hm => h (List.mem_cons_of_mem c hm)
    rw [splitOnChar, if_neg hc, ih hcs]

theorem splitOnChar_append_sep (sep : Char) (xs ys : Str) (h : sep ∉ xs) :
    splitOnChar sep (xs ++ sep :: ys) = xs :: splitOnChar sep ys := by
  induction xs with
  | nil =>
    rw [List.nil_append, splitOnChar, if_pos rfl]
  | cons c cs ih =>
    have hc : ¬ c = sep := fun hc => h (hc ▸ List.mem_cons_self c cs)
    have hcs : sep ∉ cs := fun hm => h (List.mem_cons_of_mem c hm)
    rw [List.cons_append, splitOnChar, if_neg hc, ih hcs]

/-- Claim C10: suite identifiers resolve to module names by dropping any leading
group path segment and then the final three characters: a `group/name`
identifier resolves like the bare `name`, an identifier carrying the
`.py` suffix resolves to the name without the suffix, and a bare
identifier without the suffix (such as the `mysuite` that run-list
parsing returns verbatim) resolves to a module name missing its last
three characters (`mysu`). -/
theorem module_name_resolution (g name : Str) (h1 : '/' ∉ g)
    (h2 : '/' ∉ name) :
    moduleNameOf (g ++ '/' :: name) = moduleNameOf name ∧
    moduleNameOf (name ++ ".py".data) = name ∧
    moduleNameOf ("mysuite".data) = "mysu".data := by
  refine ⟨?_, ?_, by decide⟩
  · have hmem : '/' ∈ g ++ '/' :: name :=
      List.mem_append_right g (List.mem_cons_self '/' name)
    have hsplit : splitOnChar '/' (g ++ '/' :: name) = [g, name] := by
      rw [splitOnChar_append_sep '/' g name h1, splitOnChar_not_mem '/' name h2]
    simp only [moduleNameOf, hsplit]
    rw [if_pos hmem, if_neg h2]
    simp [List.getLastD_cons]
  · have hpy : '/' ∉ (".py".data : Str) := by decide
    have hmem : '/' ∉ name ++ ".py".data := by
      intro hm
      rcases List.mem_append.mp hm with hmn | hmp
      · exact h2 hmn
      · exact hpy hmp
    simp only [moduleNameOf]
    rw [if_neg hmem]
    have hlen : (name ++ ".py".data).length - 3 = name.length := by
      rw [List.length_append]
      rfl
    rw [hlen, List.take_left]

/-- Witness for `module_name_resolution`: instantiated at the run-list
entry `tgroup/mysuite.py`, whose components contain no slash. -/
theorem module_name_resolution_witness :
    moduleNameOf ("tgroup".data ++ '/' :: "mysuite.py".data)
        = moduleNameOf ("mysuite.py".data) ∧
    moduleNameOf ("mysuite.py".data ++ ".py".data) = "mysuite.py".data ∧
    moduleNameOf ("mysuite".data) = "mysu".data :=
  module_name_resolution ("tgroup".data) ("mysuite.py".data)
    (by decide) (by decide)
